import Mathlib

/-!
Shallow embedding of the data-acquisition core of the repository file
`crawler.py` (class `WeiboSpider`): the card parser (`parse_weibo`),
the post-body parser (`parse_mblog`) and the paginated fetch loop
(`get_weibo_data`), together with theorems settling the claims of the spec.

Modelling conventions:
- Python dict fields that may be absent become `Option` fields; `d.get(k, v)`
  becomes `field.getD v`.
- Python strings are Lean `String`s; the membership test `pat in s` is
  `strContains s pat`, substring containment on the underlying character
  lists; the `text.replace` call that turns each newline into a space is
  `pyReplaceNl` (pattern and replacement are single characters, so it is a
  character map).
- External effects are oracle parameters: `now` is the string produced by
  `datetime.now().strftime` with the fixed second-precision format at parse
  time; `toDatetime s` is `pd.to_datetime` plus `strftime` with that format,
  `none` when that call raises (the `except` branch); `fetch page` is the
  outcome of the HTTP request plus JSON decoding for one page.
- `time.sleep` and all `print` logging have no effect on the data flow and
  are dropped.
-/

/-- Substring test on character lists: `hasSub pat s` is true iff `pat`
occurs contiguously inside `s`. -/
def hasSub (pat : List Char) : List Char → Bool
  | [] => pat.isEmpty
  | c :: rest => pat.isPrefixOf (c :: rest) || hasSub pat rest

/-- The Python membership test `pat in s` on strings. -/
def strContains (s pat : String) : Bool := hasSub pat.data s.data

/-- The Python call replacing each newline of `text` by a space: pattern and
replacement are one character, so this is a character-wise map. -/
def pyReplaceNl (s : String) : String :=
  ⟨s.data.map (fun c => if c == '\n' then ' ' else c)⟩

/-- The `retweeted_status` sub-dict of an mblog; only its `text` key is
read by the crawler (a `get` of `text` defaulting to the empty string). -/
structure RetweetedStatus where
  text : Option String
deriving DecidableEq, Repr

/-- The `user` sub-dict of an mblog; the crawler reads `screen_name` and
`followers_count`. -/
structure MblogUser where
  screen_name : Option String
  followers_count : Option Int
deriving DecidableEq, Repr

/-- The post-body dict (`mblog`), restricted to the keys `parse_mblog`
reads. An absent key is `none`. JSON integers are modelled as `Int`. The
`id` value is modelled as the string `str(...)` produces for it. -/
structure Mblog where
  text : Option String
  retweeted_status : Option RetweetedStatus
  created_at : Option String
  id : Option String
  bid : Option String
  reposts_count : Option Int
  comments_count : Option Int
  attitudes_count : Option Int
  user : Option MblogUser
  source : Option String
deriving DecidableEq, Repr

/-- The empty dict, the default the card lookup of `mblog` falls back to. -/
def emptyMblog : Mblog :=
  { text := none, retweeted_status := none, created_at := none, id := none,
    bid := none, reposts_count := none, comments_count := none,
    attitudes_count := none, user := none, source := none }

/-- Python dict truthiness of an mblog: `if mblog:` is false exactly for
the empty dict, i.e. when every key is absent. -/
def Mblog.isEmpty (m : Mblog) : Bool :=
  m.text.isNone && m.retweeted_status.isNone && m.created_at.isNone &&
  m.id.isNone && m.bid.isNone && m.reposts_count.isNone &&
  m.comments_count.isNone && m.attitudes_count.isNone && m.user.isNone &&
  m.source.isNone

/-- One response card: the keys `parse_weibo` reads. `card_group` absent
defaults to `[]` in the source (a `get` with default `[]`), so it is a
plain list here. -/
inductive Card where
  | mk (card_type : Option Int) (card_group : List Card) (mblog : Option Mblog)

def Card.card_type : Card → Option Int
  | .mk t _ _ => t

def Card.card_group : Card → List Card
  | .mk _ g _ => g

def Card.mblog : Card → Option Mblog
  | .mk _ _ m => m

/-- One normalized post record, the dict built by `parse_mblog`.
`is_retweet` carries the `1 if is_retweet else 0` encoding of the source
(in Python `1 == True` holds). -/
structure PostRecord where
  id : String
  bid : String
  created_at : String
  text : String
  is_retweet : Nat
  reposts_count : Int
  comments_count : Int
  attitudes_count : Int
  user_name : String
  user_followers : Int
  source : String
deriving DecidableEq, Repr

/-- The timestamp normalization of `parse_mblog` (crawler.py lines
106-113): a relative-time marker substitutes the wall clock `now`; else
`pd.to_datetime` reformats; if that raises, the raw string is kept. -/
def normalizeCreatedAt (now : String) (toDatetime : String → Option String)
    (created_at : String) : String :=
  if strContains created_at "分钟前" || strContains created_at "小时前" then
    now
  else
    match toDatetime created_at with
    | some s => s
    | none => created_at

/-- `WeiboSpider.parse_mblog` (crawler.py lines 68-130). Total: in the
embedding the `try` body cannot raise, so the `except`/`None` branch is
unreachable and the record is always produced. -/
def parse_mblog (now : String) (toDatetime : String → Option String)
    (mblog : Mblog) : PostRecord :=
  let text := mblog.text.getD ""
  let text :=
    match mblog.retweeted_status with
    | some retweet_status => text ++ " // " ++ retweet_status.text.getD ""
    | none => text
  { id := mblog.id.getD ""
    bid := mblog.bid.getD ""
    created_at := normalizeCreatedAt now toDatetime (mblog.created_at.getD "")
    text := pyReplaceNl text
    is_retweet := if mblog.retweeted_status.isSome then 1 else 0
    reposts_count := mblog.reposts_count.getD 0
    comments_count := mblog.comments_count.getD 0
    attitudes_count := mblog.attitudes_count.getD 0
    user_name := (mblog.user.getD { screen_name := none, followers_count := none }).screen_name.getD ""
    user_followers := (mblog.user.getD { screen_name := none, followers_count := none }).followers_count.getD 0
    source := mblog.source.getD "" }

/-- The `card_group` scan of the `card_type == 11` branch of `parse_weibo`
(crawler.py lines 52-57): first sub-card with `card_type == 9` and a
truthy `mblog`; the loop keeps scanning past a type-9 sub-card whose
`mblog` is empty. -/
def findDelegate : List Card → Option Mblog
  | [] => none
  | item :: rest =>
    if item.card_type == some 9 then
      let mblog := item.mblog.getD emptyMblog
      if mblog.isEmpty then findDelegate rest else some mblog
    else findDelegate rest

/-- `WeiboSpider.parse_weibo` (crawler.py lines 37-66). -/
def parse_weibo (now : String) (toDatetime : String → Option String)
    (card : Card) : Option PostRecord :=
  if card.card_type == some 11 then
    match findDelegate card.card_group with
    | some mblog => some (parse_mblog now toDatetime mblog)
    | none => none
  else if card.card_type == some 9 then
    let mblog := card.mblog.getD emptyMblog
    if mblog.isEmpty then none else some (parse_mblog now toDatetime mblog)
  else none

/-- Outcome of one page request in `get_weibo_data`:
`ok cards` — the status flag equals 1 and the `data` key is present, with
`cards` the card list of the data payload (default `[]`);
`fail` — well-formed response failing that test (the `else: break` branch);
`err` — an exception from the request/JSON decoding (the `except: continue`
branch). -/
inductive PageResponse where
  | ok (cards : List Card)
  | fail
  | err

/-- The per-page card loop of `get_weibo_data` (crawler.py lines 173-184):
parse each card; a produced record is appended to `all_data` and counted in
`new_posts` only when no accumulated record already has its `bid`. -/
def processCards (parse : Card → Option PostRecord) :
    List Card → List PostRecord → Nat → List PostRecord × Nat
  | [], all_data, new_posts => (all_data, new_posts)
  | card :: rest, all_data, new_posts =>
    match parse card with
    | some weibo_data =>
      if all_data.any (fun post => post.bid == weibo_data.bid) then
        processCards parse rest all_data new_posts
      else
        processCards parse rest (all_data ++ [weibo_data]) (new_posts + 1)
    | none => processCards parse rest all_data new_posts

/-- The page loop of `get_weibo_data` (crawler.py lines 153-203), with the
card parser and page fetching abstracted. `fuel` is the number of page
numbers still allowed by `range(1, page_num + 1)`. Besides the accumulated
records it returns the list of pages actually requested, in order, to state
early-stop claims. A page with `new_posts == 0` increments
`consecutive_empty` and stops the loop when the counter reaches 3; a page
with new posts resets it to 0; a `fail` response breaks immediately; an
`err` response skips to the next page leaving data and counter unchanged. -/
def fetchLoop (parse : Card → Option PostRecord) (fetch : Nat → PageResponse) :
    Nat → Nat → List PostRecord → Nat → List PostRecord × List Nat
  | 0, _, all_data, _ => (all_data, [])
  | fuel + 1, page, all_data, consecutive_empty =>
    match fetch page with
    | .ok cards =>
      let res := processCards parse cards all_data 0
      if res.2 == 0 then
        if consecutive_empty + 1 ≥ 3 then (res.1, [page])
        else
          let r := fetchLoop parse fetch fuel (page + 1) res.1 (consecutive_empty + 1)
          (r.1, page :: r.2)
      else
        let r := fetchLoop parse fetch fuel (page + 1) res.1 0
        (r.1, page :: r.2)
    | .fail => (all_data, [page])
    | .err =>
      let r := fetchLoop parse fetch fuel (page + 1) all_data consecutive_empty
      (r.1, page :: r.2)

/-- `WeiboSpider.get_weibo_data` (crawler.py lines 132-205): pages 1 to
`page_num`, empty accumulator, counter 0; the first component is the row
list of the returned DataFrame, the second the pages requested. -/
def get_weibo_data (now : String) (toDatetime : String → Option String)
    (fetch : Nat → PageResponse) (page_num : Nat) :
    List PostRecord × List Nat :=
  fetchLoop (parse_weibo now toDatetime) fetch page_num 1 [] 0

/-! Concrete fixtures used to evaluate the theorems on closed inputs. -/

/-- Oracle for a `pd.to_datetime` call that always raises. -/
def tdNone : String → Option String := fun _ => none

/-- Oracle for a `pd.to_datetime` call that accepts exactly one absolute
timestamp and reformats it to itself. -/
def tdIso : String → Option String :=
  fun s => if s == "2023-01-01 10:00:00" then some "2023-01-01 10:00:00" else none

/-- An mblog with a bid and a text, all other keys absent. -/
def mblogA : Mblog := { emptyMblog with bid := some "b0", text := some "hello" }

/-- A direct card (`card_type == 9`) carrying `mblogA`. -/
def cardA : Card := Card.mk (some 9) [] (some mblogA)

/-- The card parser at fixed oracles. -/
def parseA : Card → Option PostRecord := parse_weibo "" tdNone

/-- The record `parseA` produces for `cardA`. -/
def recA : PostRecord := parse_mblog "" tdNone mblogA

/-- Every page responds `ok` with the single card `cardA`. -/
def fetchA : Nat → PageResponse := fun _ => PageResponse.ok [cardA]

/-- Every page responds with a provider failure (`ok != 1`). -/
def fetchFail : Nat → PageResponse := fun _ => PageResponse.fail

/-- Every page request raises (network or JSON error). -/
def fetchErr : Nat → PageResponse := fun _ => PageResponse.err

/-- A repost: comment text "A", original text "B". -/
def mblogRt : Mblog := { emptyMblog with text := some "A", retweeted_status := some ⟨some "B"⟩ }

/-- Relative timestamp with the minutes-ago marker. -/
def mblogRel : Mblog := { emptyMblog with created_at := some "5分钟前" }

/-- Absolute timestamp accepted by `tdIso`. -/
def mblogAbs : Mblog := { emptyMblog with created_at := some "2023-01-01 10:00:00" }

/-- Unparsable timestamp. -/
def mblogBad : Mblog := { emptyMblog with created_at := some "not a date" }

/-- A card of unrecognized type. -/
def cardOther : Card := Card.mk (some 7) [] none

/-- A type-9 sub-card whose mblog is the empty dict. -/
def cardNineEmpty : Card := Card.mk (some 9) [] (some emptyMblog)

/-- A card group whose first type-9 sub-card with a non-empty mblog is `cardA`. -/
def groupA : List Card := [cardOther, cardNineEmpty, cardA]

/-- An mblog whose raw `reposts_count` is negative. -/
def mblogNeg : Mblog := { emptyMblog with reposts_count := some (-1) }

/-- Relative phrase just-now, not among the substituted markers. -/
def mblogJust : Mblog := { emptyMblog with created_at := some "刚刚" }

/-- Relative phrase days-ago, not among the substituted markers. -/
def mblogDays : Mblog := { emptyMblog with created_at := some "3天前" }

/-- A user dict with a followers_count. -/
def userF : MblogUser := { screen_name := some "u", followers_count := some 42 }

/-- A user dict without a followers_count. -/
def userNoF : MblogUser := { screen_name := some "u", followers_count := none }

/-- An mblog whose user carries followers_count 42. -/
def mblogUserF : Mblog := { emptyMblog with user := some userF }

/-- An mblog whose user has no followers_count key. -/
def mblogUserNoF : Mblog := { emptyMblog with user := some userNoF }


theorem processCards_le (parse : Card → Option PostRecord) (cards : List Card)
    (all_data : List PostRecord) (n : Nat) :
    n ≤ (processCards parse cards all_data n).2 := by
  induction cards generalizing all_data n with
  | nil => simp [processCards]
  | cons card rest ih =>
    simp only [processCards]
    cases parse card with
    | none => exact ih all_data n
    | some wd =>
      by_cases h : all_data.any (fun post => post.bid == wd.bid)
      · simp only [h, if_true]
        exact ih all_data n
      · simp only [h, if_false]
        exact Nat.le_trans (Nat.le_succ n) (ih _ _)

theorem processCards_zero_new (parse : Card → Option PostRecord) (cards : List Card)
    (all_data : List PostRecord) (n : Nat)
    (h : (processCards parse cards all_data n).2 = n) :
    (processCards parse cards all_data n).1 = all_data := by
  induction cards generalizing all_data n with
  | nil => simp [processCards]
  | cons card rest ih =>
    cases hp : parse card with
    | none =>
      simp only [processCards, hp] at h ⊢
      exact ih all_data n h
    | some wd =>
      by_cases hd : all_data.any (fun post => post.bid == wd.bid)
      · simp only [processCards, hp, hd, if_true] at h ⊢
        exact ih all_data n h
      · simp only [processCards, hp, hd, Bool.false_eq_true, if_false] at h ⊢
        have hle := processCards_le parse rest (all_data ++ [wd]) (n + 1)
        omega

theorem processCards_append (parse : Card → Option PostRecord) (cards : List Card)
    (all_data : List PostRecord) (n : Nat) :
    ∃ rest, (processCards parse cards all_data n).1 = all_data ++ rest := by
  induction cards generalizing all_data n with
  | nil => exact ⟨[], by simp [processCards]⟩
  | cons card rest ih =>
    simp only [processCards]
    cases parse card with
    | none => exact ih all_data n
    | some wd =>
      by_cases hd : all_data.any (fun post => post.bid == wd.bid)
      · simp only [hd, if_true]
        exact ih all_data n
      · simp only [hd, Bool.false_eq_true, if_false]
        obtain ⟨r, hr⟩ := ih (all_data ++ [wd]) (n + 1)
        exact ⟨wd :: r, by simp [hr]⟩

theorem processCards_nodup (parse : Card → Option PostRecord) (cards : List Card)
    (all_data : List PostRecord) (n : Nat)
    (h : (all_data.map PostRecord.bid).Nodup) :
    ((processCards parse cards all_data n).1.map PostRecord.bid).Nodup := by
  induction cards generalizing all_data n with
  | nil => simpa [processCards] using h
  | cons card rest ih =>
    simp only [processCards]
    cases parse card with
    | none => exact ih all_data n h
    | some wd =>
      by_cases hd : all_data.any (fun post => post.bid == wd.bid)
      · simp only [hd, if_true]
        exact ih all_data n h
      · simp only [hd, Bool.false_eq_true, if_false]
        refine ih (all_data ++ [wd]) (n + 1) ?_
        simp only [List.any_eq_true, not_exists, not_and, Bool.not_eq_true] at hd
        simp only [List.map_append, List.map_cons, List.map_nil, List.nodup_append]
        refine ⟨h, List.nodup_singleton _, ?_⟩
        intro a ha hb
        simp only [List.mem_singleton] at hb
        simp only [List.mem_map] at ha
        obtain ⟨post, hpost, rfl⟩ := ha
        have := hd post hpost
        simp only [beq_eq_false_iff_ne, ne_eq] at this
        exact this hb

theorem fetchLoop_append (parse : Card → Option PostRecord) (fetch : Nat → PageResponse)
    (fuel page : Nat) (all_data : List PostRecord) (ce : Nat) :
    ∃ rest, (fetchLoop parse fetch fuel page all_data ce).1 = all_data ++ rest := by
  induction fuel generalizing page all_data ce with
  | zero => exact ⟨[], by simp [fetchLoop]⟩
  | succ fuel ih =>
    cases hf : fetch page with
    | ok cards =>
      obtain ⟨r1, hr1⟩ := processCards_append parse cards all_data 0
      by_cases hz : (processCards parse cards all_data 0).2 = 0
      · by_cases hce : ce + 1 ≥ 3
        · refine ⟨r1, ?_⟩
          simp [fetchLoop, hf, hz, hce, hr1]
        · obtain ⟨r2, hr2⟩ := ih (page + 1) (processCards parse cards all_data 0).1 (ce + 1)
          refine ⟨r1 ++ r2, ?_⟩
          rw [hr1] at hr2
          simp [fetchLoop, hf, hz, hce, hr1, hr2]
      · obtain ⟨r2, hr2⟩ := ih (page + 1) (processCards parse cards all_data 0).1 0
        refine ⟨r1 ++ r2, ?_⟩
        rw [hr1] at hr2
        simp [fetchLoop, hf, hz, hr1, hr2]
    | fail => exact ⟨[], by simp [fetchLoop, hf]⟩
    | err =>
      obtain ⟨r2, hr2⟩ := ih (page + 1) all_data ce
      exact ⟨r2, by simp [fetchLoop, hf, hr2]⟩

theorem fetchLoop_nodup (parse : Card → Option PostRecord) (fetch : Nat → PageResponse)
    (fuel page : Nat) (all_data : List PostRecord) (ce : Nat)
    (h : (all_data.map PostRecord.bid).Nodup) :
    (((fetchLoop parse fetch fuel page all_data ce).1.map PostRecord.bid).Nodup) := by
  induction fuel generalizing page all_data ce with
  | zero => simpa [fetchLoop] using h
  | succ fuel ih =>
    cases hf : fetch page with
    | ok cards =>
      have hn := processCards_nodup parse cards all_data 0 h
      by_cases hz : (processCards parse cards all_data 0).2 = 0
      · by_cases hce : ce + 1 ≥ 3
        · simpa [fetchLoop, hf, hz, hce] using hn
        · have := ih (page + 1) (processCards parse cards all_data 0).1 (ce + 1) hn
          simpa [fetchLoop, hf, hz, hce] using this
      · have := ih (page + 1) (processCards parse cards all_data 0).1 0 hn
        simpa [fetchLoop, hf, hz] using this
    | fail => simpa [fetchLoop, hf] using h
    | err =>
      have := ih (page + 1) all_data ce h
      simpa [fetchLoop, hf] using this

theorem fetchLoop_ok_empty_continue (parse : Card → Option PostRecord)
    (fetch : Nat → PageResponse) (fuel page : Nat) (all_data : List PostRecord)
    (ce : Nat) (cards : List Card) (hf : fetch page = PageResponse.ok cards)
    (hz : (processCards parse cards all_data 0).2 = 0) (hce : ce + 1 < 3) :
    fetchLoop parse fetch (fuel + 1) page all_data ce =
      ((fetchLoop parse fetch fuel (page + 1) all_data (ce + 1)).1,
        page :: (fetchLoop parse fetch fuel (page + 1) all_data (ce + 1)).2) := by
  have h1 := processCards_zero_new parse cards all_data 0 hz
  have hce' : ¬ (ce + 1 ≥ 3) := by omega
  simp [fetchLoop, hf, hz, hce', h1]

theorem fetchLoop_ok_empty_stop (parse : Card → Option PostRecord)
    (fetch : Nat → PageResponse) (fuel page : Nat) (all_data : List PostRecord)
    (ce : Nat) (cards : List Card) (hf : fetch page = PageResponse.ok cards)
    (hz : (processCards parse cards all_data 0).2 = 0) (hce : ce + 1 ≥ 3) :
    fetchLoop parse fetch (fuel + 1) page all_data ce = (all_data, [page]) := by
  have h1 := processCards_zero_new parse cards all_data 0 hz
  simp [fetchLoop, hf, hz, hce, h1]

theorem fetchLoop_ok_new_reset (parse : Card → Option PostRecord)
    (fetch : Nat → PageResponse) (fuel page : Nat) (all_data : List PostRecord)
    (ce : Nat) (cards : List Card) (hf : fetch page = PageResponse.ok cards)
    (hz : (processCards parse cards all_data 0).2 ≠ 0) :
    fetchLoop parse fetch (fuel + 1) page all_data ce =
      ((fetchLoop parse fetch fuel (page + 1) (processCards parse cards all_data 0).1 0).1,
        page :: (fetchLoop parse fetch fuel (page + 1) (processCards parse cards all_data 0).1 0).2) := by
  simp [fetchLoop, hf, beq_iff_eq, hz]

theorem fetchLoop_three_empty (parse : Card → Option PostRecord)
    (fetch : Nat → PageResponse) (f page : Nat) (all_data : List PostRecord)
    (cs : Nat → List Card)
    (hfetch : ∀ i, i < 3 → fetch (page + i) = PageResponse.ok (cs i))
    (hzero : ∀ i, i < 3 → (processCards parse (cs i) all_data 0).2 = 0) :
    fetchLoop parse fetch (f + 3) page all_data 0 = (all_data, [page, page + 1, page + 2]) := by
  have h0f := hfetch 0 (by omega)
  have h1f := hfetch 1 (by omega)
  have h2f := hfetch 2 (by omega)
  have h0z := hzero 0 (by omega)
  have h1z := hzero 1 (by omega)
  have h2z := hzero 2 (by omega)
  rw [Nat.add_zero] at h0f
  have s1 := fetchLoop_ok_empty_continue parse fetch (f + 2) page all_data 0 (cs 0) h0f h0z (by omega)
  have s2 := fetchLoop_ok_empty_continue parse fetch (f + 1) (page + 1) all_data 1 (cs 1) h1f h1z (by omega)
  have s3 := fetchLoop_ok_empty_stop parse fetch f (page + 2) all_data 2 (cs 2) h2f h2z (by omega)
  have e1 : f + 3 = f + 2 + 1 := by omega
  have e2 : f + 2 = f + 1 + 1 := by omega
  have e3 : page + 1 + 1 = page + 2 := by omega
  rw [e3] at s2
  rw [e1, s1, e2, s2, s3]

theorem fetchLoop_all_err (parse : Card → Option PostRecord) (fetch : Nat → PageResponse)
    (h : ∀ q, fetch q = PageResponse.err) :
    ∀ (fuel page : Nat) (all_data : List PostRecord) (ce : Nat),
      (fetchLoop parse fetch fuel page all_data ce).1 = all_data := by
  intro fuel
  induction fuel with
  | zero => intro page all_data ce; simp [fetchLoop]
  | succ fuel ih =>
    intro page all_data ce
    simp [fetchLoop, h page, ih]

theorem findDelegate_isEmpty_false (g : List Card) :
    ∀ m, findDelegate g = some m → m.isEmpty = false := by
  induction g with
  | nil => intro m h; simp [findDelegate] at h
  | cons item rest ih =>
    intro m h
    simp only [findDelegate] at h
    by_cases ht : (item.card_type == some 9) = true
    · simp only [ht, if_true] at h
      by_cases he : (item.mblog.getD emptyMblog).isEmpty = true
      · simp only [he, if_true] at h
        exact ih m h
      · simp only [Bool.not_eq_true] at he
        simp only [he, Bool.false_eq_true, if_false, Option.some.injEq] at h
        rw [← h]
        exact he
    · simp only [Bool.not_eq_true] at ht
      simp only [ht, Bool.false_eq_true, if_false] at h
      exact ih m h

theorem findDelegate_skip (pre rest : List Card)
    (h : ∀ x ∈ pre, x.card_type = some 9 → (x.mblog.getD emptyMblog).isEmpty = true) :
    findDelegate (pre ++ rest) = findDelegate rest := by
  induction pre with
  | nil => rfl
  | cons x xs ih =>
    simp only [List.cons_append, findDelegate]
    by_cases ht : (x.card_type == some 9) = true
    · have ht2 : x.card_type = some 9 := by simpa [beq_iff_eq] using ht
      have he := h x (by simp) ht2
      simp only [ht, if_true, he]
      exact ih (fun y hy hty => h y (by simp [hy]) hty)
    · simp only [Bool.not_eq_true] at ht
      simp only [ht, Bool.false_eq_true, if_false]
      exact ih (fun y hy hty => h y (by simp [hy]) hty)

/-- C1: the fetch loop maintains the count of consecutive zero-new pages: a successfully fetched page with zero new records and counter below 3 continues with the counter incremented and the data unchanged; a page with at least one new record continues with the counter reset to 0; and from counter 0, three consecutive pages whose cards yield no new records make the loop request exactly those three pages and stop with the data unchanged, however much fuel (page_num) remains. -/
theorem crawler_stop_heuristic :
    ∀ (parse : Card → Option PostRecord) (fetch : Nat → PageResponse),
      (∀ (fuel page : Nat) (all_data : List PostRecord) (ce : Nat) (cards : List Card),
        fetch page = PageResponse.ok cards →
        (processCards parse cards all_data 0).2 = 0 → ce + 1 < 3 →
        fetchLoop parse fetch (fuel + 1) page all_data ce =
          ((fetchLoop parse fetch fuel (page + 1) all_data (ce + 1)).1,
            page :: (fetchLoop parse fetch fuel (page + 1) all_data (ce + 1)).2))
      ∧ (∀ (fuel page : Nat) (all_data : List PostRecord) (ce : Nat) (cards : List Card),
        fetch page = PageResponse.ok cards →
        (processCards parse cards all_data 0).2 ≠ 0 →
        fetchLoop parse fetch (fuel + 1) page all_data ce =
          ((fetchLoop parse fetch fuel (page + 1) (processCards parse cards all_data 0).1 0).1,
            page :: (fetchLoop parse fetch fuel (page + 1) (processCards parse cards all_data 0).1 0).2))
      ∧ (∀ (f page : Nat) (all_data : List PostRecord) (cs : Nat → List Card),
        (∀ i, i < 3 → fetch (page + i) = PageResponse.ok (cs i)) →
        (∀ i, i < 3 → (processCards parse (cs i) all_data 0).2 = 0) →
        fetchLoop parse fetch (f + 3) page all_data 0 =
          (all_data, [page, page + 1, page + 2])) :=
  fun parse fetch =>
    ⟨fun fuel page all_data ce cards hf hz hce =>
        fetchLoop_ok_empty_continue parse fetch fuel page all_data ce cards hf hz hce,
     fun fuel page all_data ce cards hf hz =>
        fetchLoop_ok_new_reset parse fetch fuel page all_data ce cards hf hz,
     fun f page all_data cs hfetch hzero =>
        fetchLoop_three_empty parse fetch f page all_data cs hfetch hzero⟩

theorem crawler_stop_heuristic_witness :
    (fetchLoop parseA fetchA (47 + 3) 2 [recA] 0 = ([recA], [2, 3, 4]))
    ∧ (fetchLoop parseA fetchA (4 + 1) 1 [] 0 =
        ((fetchLoop parseA fetchA 4 2 (processCards parseA [cardA] [] 0).1 0).1,
          1 :: (fetchLoop parseA fetchA 4 2 (processCards parseA [cardA] [] 0).1 0).2)) :=
  ⟨(crawler_stop_heuristic parseA fetchA).2.2 47 2 [recA] (fun _ => [cardA])
      (fun _ _ => rfl)
      (fun _ _ => (by decide : (processCards parseA [cardA] [recA] 0).2 = 0)),
   (crawler_stop_heuristic parseA fetchA).2.1 4 1 [] 0 [cardA] rfl (by decide)⟩

/-- C2: records are inserted only when their bid is absent from the whole accumulated set: the table returned by get_weibo_data has pairwise distinct bids, the loop only ever appends to the accumulated sequence (first-seen order), a parsed record whose bid is already present is dropped silently, and one whose bid is new is appended at the end and counted. -/
theorem crawler_dedup_by_bid :
    ∀ (now : String) (toDatetime : String → Option String) (fetch : Nat → PageResponse)
      (page_num : Nat) (parse : Card → Option PostRecord) (fuel page : Nat)
      (all_data : List PostRecord) (ce n : Nat) (card : Card) (rest : List Card)
      (wd : PostRecord),
      (((get_weibo_data now toDatetime fetch page_num).1.map PostRecord.bid).Nodup)
      ∧ ((all_data.map PostRecord.bid).Nodup →
          (((fetchLoop parse fetch fuel page all_data ce).1.map PostRecord.bid).Nodup))
      ∧ (∃ tail, (fetchLoop parse fetch fuel page all_data ce).1 = all_data ++ tail)
      ∧ (parse card = some wd →
          all_data.any (fun post => post.bid == wd.bid) = true →
          processCards parse (card :: rest) all_data n =
            processCards parse rest all_data n)
      ∧ (parse card = some wd →
          all_data.any (fun post => post.bid == wd.bid) = false →
          processCards parse (card :: rest) all_data n =
            processCards parse rest (all_data ++ [wd]) (n + 1)) := by
  intro now toDatetime fetch page_num parse fuel page all_data ce n card rest wd
  refine ⟨?_, fun h => fetchLoop_nodup parse fetch fuel page all_data ce h,
    fetchLoop_append parse fetch fuel page all_data ce,
    fun hp hd => by simp [processCards, hp, hd],
    fun hp hd => by simp [processCards, hp, hd]⟩
  exact fetchLoop_nodup (parse_weibo now toDatetime) fetch page_num 1 [] 0 (by simp)

theorem crawler_dedup_by_bid_witness :
    (([recA].map PostRecord.bid).Nodup)
    ∧ (((fetchLoop parseA fetchA 3 1 [recA] 0).1.map PostRecord.bid).Nodup)
    ∧ (processCards parseA [cardA] [recA] 5 = processCards parseA [] [recA] 5)
    ∧ (processCards parseA [cardA] [] 0 = processCards parseA [] ([] ++ [recA]) (0 + 1)) :=
  ⟨by decide,
   (crawler_dedup_by_bid "" tdNone fetchA 3 parseA 3 1 [recA] 0 5 cardA [] recA).2.1 (by decide),
   (crawler_dedup_by_bid "" tdNone fetchA 3 parseA 3 1 [recA] 0 5 cardA [] recA).2.2.2.1 (by decide) (by decide),
   (crawler_dedup_by_bid "" tdNone fetchA 3 parseA 3 1 [] 0 0 cardA [] recA).2.2.2.2 (by decide) (by decide)⟩

/-- C3: a page response that is well-formed but not ok (ok != 1 or no data payload) makes the loop stop at once: that page is the last one requested and the records accumulated so far are returned unchanged. -/
theorem crawler_hard_stop_not_ok :
    ∀ (parse : Card → Option PostRecord) (fetch : Nat → PageResponse)
      (fuel page : Nat) (all_data : List PostRecord) (ce : Nat),
      fetch page = PageResponse.fail →
      fetchLoop parse fetch (fuel + 1) page all_data ce = (all_data, [page]) := by
  intro parse fetch fuel page all_data ce h
  simp [fetchLoop, h]

theorem crawler_hard_stop_not_ok_witness :
    fetchLoop parseA fetchFail (9 + 1) 2 [recA] 0 = ([recA], [2]) :=
  crawler_hard_stop_not_ok parseA fetchFail 9 2 [recA] 0 rfl

/-- C4: a transient page error (exception during request or JSON decoding) is skipped: the loop continues with the next page number, the same data and the same consecutive-empty counter; when every page errors, the loop returns its accumulator unchanged and get_weibo_data returns the empty table; being a total function, it raises nothing. -/
theorem crawler_transient_skip :
    ∀ (parse : Card → Option PostRecord) (fetch : Nat → PageResponse)
      (fuel page : Nat) (all_data : List PostRecord) (ce : Nat)
      (now : String) (toDatetime : String → Option String) (page_num : Nat),
      (fetch page = PageResponse.err →
        fetchLoop parse fetch (fuel + 1) page all_data ce =
          ((fetchLoop parse fetch fuel (page + 1) all_data ce).1,
            page :: (fetchLoop parse fetch fuel (page + 1) all_data ce).2))
      ∧ ((∀ q, fetch q = PageResponse.err) →
          (fetchLoop parse fetch fuel page all_data ce).1 = all_data)
      ∧ ((∀ q, fetch q = PageResponse.err) →
          (get_weibo_data now toDatetime fetch page_num).1 = []) := by
  intro parse fetch fuel page all_data ce now toDatetime page_num
  refine ⟨fun h => by simp [fetchLoop, h], fun h => fetchLoop_all_err parse fetch h fuel page all_data ce, fun h => ?_⟩
  simp [get_weibo_data, fetchLoop_all_err (parse_weibo now toDatetime) fetch h]

theorem crawler_transient_skip_witness :
    (fetchLoop parseA fetchErr (4 + 1) 3 [recA] 1 =
      ((fetchLoop parseA fetchErr 4 4 [recA] 1).1,
        3 :: (fetchLoop parseA fetchErr 4 4 [recA] 1).2))
    ∧ (fetchLoop parseA fetchErr 7 1 [recA] 0).1 = [recA]
    ∧ (get_weibo_data "" tdNone fetchErr 50).1 = [] :=
  ⟨(crawler_transient_skip parseA fetchErr 4 3 [recA] 1 "" tdNone 50).1 rfl,
   (crawler_transient_skip parseA fetchErr 7 1 [recA] 0 "" tdNone 50).2.1 (fun _ => rfl),
   (crawler_transient_skip parseA fetchErr 7 1 [recA] 0 "" tdNone 50).2.2 (fun _ => rfl)⟩

/-- C5: when an mblog has a retweeted_status, the record has is_retweet = 1 (the code encoding of true) and its text is the comment and the original text joined by the separator, newline-collapsed; for comment "A" and original "B" the text is "A // B". -/
theorem parse_mblog_retweet_text :
    ∀ (now : String) (toDatetime : String → Option String) (m : Mblog)
      (rs : RetweetedStatus),
      m.retweeted_status = some rs →
      (parse_mblog now toDatetime m).is_retweet = 1
      ∧ (parse_mblog now toDatetime m).text =
          pyReplaceNl (m.text.getD "" ++ " // " ++ rs.text.getD "")
      ∧ (m.text = some "A" → rs.text = some "B" →
          (parse_mblog now toDatetime m).text = "A // B") := by
  intro now toDatetime m rs h
  refine ⟨by simp [parse_mblog, h], by simp [parse_mblog, h], fun ht hrs => ?_⟩
  simp [parse_mblog, h, ht, hrs]
  decide

theorem parse_mblog_retweet_text_witness :
    (parse_mblog "" tdNone mblogRt).is_retweet = 1
    ∧ (parse_mblog "" tdNone mblogRt).text = "A // B" :=
  ⟨(parse_mblog_retweet_text "" tdNone _ ⟨some "B"⟩ rfl).1,
   (parse_mblog_retweet_text "" tdNone _ ⟨some "B"⟩ rfl).2.2 rfl rfl⟩

/-- C6: created_at of the produced record: when the raw string holds a relative-time marker it is the parse-time wall clock now; otherwise the reformatted timestamp when the datetime parser succeeds, and the raw string unchanged when it fails; the record is produced in every case. -/
theorem parse_mblog_timestamp_normalization :
    ∀ (now : String) (toDatetime : String → Option String) (m : Mblog),
      ((strContains (m.created_at.getD "") "分钟前"
          || strContains (m.created_at.getD "") "小时前") = true →
        (parse_mblog now toDatetime m).created_at = now)
      ∧ (∀ s, (strContains (m.created_at.getD "") "分钟前"
          || strContains (m.created_at.getD "") "小时前") = false →
        toDatetime (m.created_at.getD "") = some s →
        (parse_mblog now toDatetime m).created_at = s)
      ∧ ((strContains (m.created_at.getD "") "分钟前"
          || strContains (m.created_at.getD "") "小时前") = false →
        toDatetime (m.created_at.getD "") = none →
        (parse_mblog now toDatetime m).created_at = m.created_at.getD "") := by
  intro now toDatetime m
  refine ⟨fun h => ?_, fun s h hp => ?_, fun h hp => ?_⟩
  · simp [parse_mblog, normalizeCreatedAt, h]
  · simp [parse_mblog, normalizeCreatedAt, h, hp]
  · simp [parse_mblog, normalizeCreatedAt, h, hp]

theorem parse_mblog_timestamp_normalization_witness :
    (parse_mblog "2024-06-01 12:00:00" tdNone mblogRel).created_at = "2024-06-01 12:00:00"
    ∧ (parse_mblog "2024-06-01 12:00:00" tdIso mblogAbs).created_at = "2023-01-01 10:00:00"
    ∧ (parse_mblog "2024-06-01 12:00:00" tdNone mblogBad).created_at = "not a date" :=
  ⟨(parse_mblog_timestamp_normalization "2024-06-01 12:00:00" tdNone mblogRel).1 (by decide),
   (parse_mblog_timestamp_normalization "2024-06-01 12:00:00" tdIso mblogAbs).2.1
      "2023-01-01 10:00:00" (by decide) (by decide),
   (parse_mblog_timestamp_normalization "2024-06-01 12:00:00" tdNone mblogBad).2.2
      (by decide) (by decide)⟩

/-- C7: a composite card (card_type 11) parses via the first type-9 sub-card of its card_group holding a non-empty mblog m, yielding exactly the result of a direct type-9 card carrying m, and yields none when no such sub-card exists; sub-cards of other types or with empty mblogs before it are skipped. -/
theorem parse_weibo_composite_delegates :
    ∀ (now : String) (toDatetime : String → Option String) (g : List Card)
      (mb : Option Mblog) (m : Mblog),
      (findDelegate g = some m →
        parse_weibo now toDatetime (Card.mk (some 11) g mb) =
          some (parse_mblog now toDatetime m)
        ∧ parse_weibo now toDatetime (Card.mk (some 11) g mb) =
            parse_weibo now toDatetime (Card.mk (some 9) [] (some m)))
      ∧ (findDelegate g = none →
          parse_weibo now toDatetime (Card.mk (some 11) g mb) = none)
      ∧ (∀ (pre rest : List Card) (item : Card) (m0 : Mblog),
          (∀ x ∈ pre, x.card_type = some 9 → (x.mblog.getD emptyMblog).isEmpty = true) →
          item.card_type = some 9 → item.mblog = some m0 → m0.isEmpty = false →
          parse_weibo now toDatetime (Card.mk (some 11) (pre ++ item :: rest) mb) =
            some (parse_mblog now toDatetime m0)) := by
  intro now toDatetime g mb m
  refine ⟨fun h => ⟨?_, ?_⟩, fun h => ?_, fun pre rest item m0 hpre ht hm he => ?_⟩
  · simp [parse_weibo, Card.card_type, Card.card_group, h]
  · have he := findDelegate_isEmpty_false g m h
    simp [parse_weibo, Card.card_type, Card.card_group, Card.mblog, h, he]
  · simp [parse_weibo, Card.card_type, Card.card_group, h]
  · have hd : findDelegate (pre ++ item :: rest) = some m0 := by
      rw [findDelegate_skip pre (item :: rest) hpre]
      simp [findDelegate, ht, hm, he]
    simp [parse_weibo, Card.card_type, Card.card_group, hd]

theorem parse_weibo_composite_delegates_witness :
    parse_weibo "" tdNone (Card.mk (some 11) groupA none) = some recA
    ∧ parse_weibo "" tdNone (Card.mk (some 11) groupA none) =
        parse_weibo "" tdNone (Card.mk (some 9) [] (some mblogA)) :=
  ⟨((parse_weibo_composite_delegates "" tdNone groupA none mblogA).1 (by decide)).1,
   ((parse_weibo_composite_delegates "" tdNone groupA none mblogA).1 (by decide)).2⟩

/-- C8: parse_weibo yields none for a card whose card_type is neither 9 nor 11, and for a type-9 card whose mblog key is missing or the empty dict; it is a total function that always yields some record or none, so no exception can escape. -/
theorem parse_weibo_absent_cases :
    ∀ (now : String) (toDatetime : String → Option String) (c : Card) (g : List Card),
      (c.card_type ≠ some 9 → c.card_type ≠ some 11 →
        parse_weibo now toDatetime c = none)
      ∧ parse_weibo now toDatetime (Card.mk (some 9) g none) = none
      ∧ parse_weibo now toDatetime (Card.mk (some 9) g (some emptyMblog)) = none
      ∧ ((parse_weibo now toDatetime c).isSome = true ∨
          parse_weibo now toDatetime c = none) := by
  intro now toDatetime c g
  refine ⟨fun h9 h11 => ?_, ?_, ?_, ?_⟩
  · simp [parse_weibo, beq_iff_eq, h9, h11]
  · simp [parse_weibo, Card.card_type, Card.mblog, emptyMblog, Mblog.isEmpty]
  · simp [parse_weibo, Card.card_type, Card.mblog, emptyMblog, Mblog.isEmpty]
  · cases hv : parse_weibo now toDatetime c with
    | none => exact Or.inr rfl
    | some r => exact Or.inl (by simp)

theorem parse_weibo_absent_cases_witness :
    parse_weibo "" tdNone cardOther = none
    ∧ parse_weibo "" tdNone (Card.mk (some 9) [] none) = none
    ∧ parse_weibo "" tdNone (Card.mk (some 9) [] (some emptyMblog)) = none :=
  ⟨(parse_weibo_absent_cases "" tdNone cardOther []).1 (by decide) (by decide),
   (parse_weibo_absent_cases "" tdNone cardOther []).2.1,
   (parse_weibo_absent_cases "" tdNone cardOther []).2.2.1⟩

/-- C9 counterexample: on an mblog whose raw reposts_count is -1, the record returned by parse_mblog has a negative reposts_count, refuting the unconditional non-negativity stated by the claim. -/
theorem parse_mblog_counts_counterexample :
    ¬ (0 ≤ (parse_mblog "" tdNone mblogNeg).reposts_count) := by decide

/-- C9 (amended): the count fields of the record equal the raw mblog values when present and default to 0 when the field, the user object or its followers_count is absent; consequently each is non-negative whenever every present raw value is non-negative (the code copies raw values unchecked, so a negative raw count is passed through). -/
theorem parse_mblog_counts_defaults :
    ∀ (now : String) (toDatetime : String → Option String) (m : Mblog),
      (m.reposts_count = none → (parse_mblog now toDatetime m).reposts_count = 0)
      ∧ (m.comments_count = none → (parse_mblog now toDatetime m).comments_count = 0)
      ∧ (m.attitudes_count = none → (parse_mblog now toDatetime m).attitudes_count = 0)
      ∧ (m.user = none → (parse_mblog now toDatetime m).user_followers = 0)
      ∧ (∀ v, m.reposts_count = some v → (parse_mblog now toDatetime m).reposts_count = v)
      ∧ (∀ v, m.comments_count = some v → (parse_mblog now toDatetime m).comments_count = v)
      ∧ (∀ v, m.attitudes_count = some v → (parse_mblog now toDatetime m).attitudes_count = v)
      ∧ (∀ u, m.user = some u → u.followers_count = none →
          (parse_mblog now toDatetime m).user_followers = 0)
      ∧ (∀ u v, m.user = some u → u.followers_count = some v →
          (parse_mblog now toDatetime m).user_followers = v)
      ∧ ((∀ v, m.reposts_count = some v → 0 ≤ v) →
          0 ≤ (parse_mblog now toDatetime m).reposts_count)
      ∧ ((∀ v, m.comments_count = some v → 0 ≤ v) →
          0 ≤ (parse_mblog now toDatetime m).comments_count)
      ∧ ((∀ v, m.attitudes_count = some v → 0 ≤ v) →
          0 ≤ (parse_mblog now toDatetime m).attitudes_count)
      ∧ ((∀ u v, m.user = some u → u.followers_count = some v → 0 ≤ v) →
          0 ≤ (parse_mblog now toDatetime m).user_followers) := by
  intro now toDatetime m
  refine ⟨fun h => by simp [parse_mblog, h], fun h => by simp [parse_mblog, h],
    fun h => by simp [parse_mblog, h], fun h => by simp [parse_mblog, h],
    fun v h => by simp [parse_mblog, h], fun v h => by simp [parse_mblog, h],
    fun v h => by simp [parse_mblog, h],
    fun u hu hv => by simp [parse_mblog, hu, hv],
    fun u v hu hv => by simp [parse_mblog, hu, hv],
    fun h => ?_, fun h => ?_, fun h => ?_, fun h => ?_⟩
  · cases hr : m.reposts_count with
    | none => simp [parse_mblog, hr]
    | some v => simpa [parse_mblog, hr] using h v hr
  · cases hr : m.comments_count with
    | none => simp [parse_mblog, hr]
    | some v => simpa [parse_mblog, hr] using h v hr
  · cases hr : m.attitudes_count with
    | none => simp [parse_mblog, hr]
    | some v => simpa [parse_mblog, hr] using h v hr
  · cases hu : m.user with
    | none => simp [parse_mblog, hu]
    | some u =>
      cases hv : u.followers_count with
      | none => simp [parse_mblog, hu, hv]
      | some v => simpa [parse_mblog, hu, hv] using h u v hu hv

theorem parse_mblog_counts_defaults_witness :
    (parse_mblog "" tdNone emptyMblog).reposts_count = 0
    ∧ (parse_mblog "" tdNone emptyMblog).user_followers = 0
    ∧ (parse_mblog "" tdNone mblogNeg).reposts_count = -1
    ∧ (parse_mblog "" tdNone mblogUserNoF).user_followers = 0
    ∧ (parse_mblog "" tdNone mblogUserF).user_followers = 42
    ∧ 0 ≤ (parse_mblog "" tdNone emptyMblog).reposts_count
    ∧ 0 ≤ (parse_mblog "" tdNone emptyMblog).user_followers :=
  ⟨(parse_mblog_counts_defaults "" tdNone emptyMblog).1 rfl,
   (parse_mblog_counts_defaults "" tdNone emptyMblog).2.2.2.1 rfl,
   (parse_mblog_counts_defaults "" tdNone mblogNeg).2.2.2.2.1 (-1) rfl,
   (parse_mblog_counts_defaults "" tdNone mblogUserNoF).2.2.2.2.2.2.2.1
      userNoF rfl rfl,
   (parse_mblog_counts_defaults "" tdNone mblogUserF).2.2.2.2.2.2.2.2.1
      userF 42 rfl rfl,
   (parse_mblog_counts_defaults "" tdNone emptyMblog).2.2.2.2.2.2.2.2.2.1
      (fun _ h => nomatch h),
   (parse_mblog_counts_defaults "" tdNone emptyMblog).2.2.2.2.2.2.2.2.2.2.2.2
      (fun _ _ h _ => nomatch h)⟩

/-- C10: the wall-clock substitution happens exactly when the raw created_at contains the minutes-ago or the hours-ago marker; any other string, including the just-now and days-ago phrases, is handed to the datetime parser and kept unchanged if that fails. -/
theorem parse_mblog_relative_marker_exact :
    ∀ (now : String) (toDatetime : String → Option String) (m : Mblog) (raw : String),
      m.created_at = some raw →
      ((strContains raw "分钟前" || strContains raw "小时前") = true →
        (parse_mblog now toDatetime m).created_at = now)
      ∧ ((strContains raw "分钟前" || strContains raw "小时前") = false →
        (parse_mblog now toDatetime m).created_at = (toDatetime raw).getD raw)
      ∧ (strContains "刚刚" "分钟前" || strContains "刚刚" "小时前") = false
      ∧ (strContains "3天前" "分钟前" || strContains "3天前" "小时前") = false
      ∧ (strContains "5分钟前" "分钟前" || strContains "5分钟前" "小时前") = true
      ∧ (strContains "2小时前" "分钟前" || strContains "2小时前" "小时前") = true := by
  intro now toDatetime m raw h
  refine ⟨fun hm => by simp [parse_mblog, normalizeCreatedAt, h, hm],
    fun hm => ?_, by decide, by decide, by decide, by decide⟩
  cases hp : toDatetime raw with
  | none => simp [parse_mblog, normalizeCreatedAt, h, hm, hp]
  | some s => simp [parse_mblog, normalizeCreatedAt, h, hm, hp]

theorem parse_mblog_relative_marker_exact_witness :
    (parse_mblog "NOW" tdNone mblogJust).created_at = "刚刚"
    ∧ (parse_mblog "NOW" tdNone mblogDays).created_at = "3天前"
    ∧ (parse_mblog "NOW" tdNone mblogRel).created_at = "NOW" :=
  ⟨(parse_mblog_relative_marker_exact "NOW" tdNone mblogJust "刚刚" rfl).2.1 (by decide),
   (parse_mblog_relative_marker_exact "NOW" tdNone mblogDays "3天前" rfl).2.1 (by decide),
   (parse_mblog_relative_marker_exact "NOW" tdNone mblogRel "5分钟前" rfl).1 (by decide)⟩
